import Mathlib

/-
  Verification development for the Big Five LLM evaluation pipeline
  (src/eval.py, src/utils/models.py, src/utils/results_handler.py,
  src/utils/schemas.py).

  The Python code is shallowly embedded: pure fragments become Lean
  functions, per-call network effects become explicit oracles
  (question index and attempt number mapped to a call outcome), and
  Python exceptions become Option/Except results.  Machine integers do
  not overflow anywhere in the source (scores are 1..5), so scores are
  modelled as Int; Python float division in trait averaging is
  modelled exactly over the rationals.
-/

namespace BigFive

/-- Outcome of one invocation of `chain.invoke` for one (model, question,
attempt): either a structured score, or a raised exception carrying its
message (eval.py lines 167-174). -/
inductive CallResult where
  | ok (score : Int)
  | err (msg : String)
deriving DecidableEq, Repr

/-- One entry of a model's error list: `ErrorResponse` from
src/utils/schemas.py lines 20-23 (`error : str`,
`default_score : Optional[int]`). -/
structure ErrorRec where
  error : String
  default_score : Option Int
deriving DecidableEq, Repr

/-- A question in the loaded dict format, the shape produced by the JSON
question bank: fields `question`, optional `trait`, `reverse`
(spec section 3; accessed at eval.py line 164 and
results_handler.py lines 40-43, 102-108). -/
structure QuestionD where
  question : String
  trait : Option String
  reverse : Bool
deriving DecidableEq, Repr

/-- ASCII whitespace stripped by Python's `str.strip()` (the sources
only ever strip ASCII trait names). -/
def isPyWs (c : Char) : Bool :=
  c == ' ' || c == '\t' || c == '\n' || c == '\r' || c == '\x0b' || c == '\x0c'

/-- Drop leading Python whitespace from a character list. -/
def dropLeadingWs : List Char → List Char
  | [] => []
  | c :: cs => if isPyWs c then dropLeadingWs cs else c :: cs

/-- Python's `str.strip()`: remove leading and trailing whitespace. -/
def pyStrip (s : String) : String :=
  String.mk (List.reverse (dropLeadingWs (List.reverse (dropLeadingWs
    s.toList))))

/-- Lexicographic comparison of character lists by code point, Python's
string ordering. -/
def lexLe : List Char → List Char → Bool
  | [], _ => true
  | _ :: _, [] => false
  | a :: as, b :: bs =>
    if a.toNat < b.toNat then true
    else if b.toNat < a.toNat then false
    else lexLe as bs

/-- Python string `<=`. -/
def strLe (a b : String) : Bool :=
  lexLe a.toList b.toList

/-- Insert a string into an ascending list, keeping it sorted. -/
def insertStr (x : String) : List String → List String
  | [] => [x]
  | y :: ys => if strLe x y then x :: y :: ys else y :: insertStr x ys

/-- Python's `sorted` on strings (stable ascending insertion sort). -/
def sortStrings : List String → List String
  | [] => []
  | x :: xs => insertStr x (sortStrings xs)

/-- ASCII uppercasing of one character, as Python's `str.upper` does on
the ASCII configuration names used by the sources. -/
def pyUpperChar (c : Char) : Char :=
  if c.toNat ≥ 97 && c.toNat ≤ 122 then Char.ofNat (c.toNat - 32) else c

/-- ASCII lowercasing of one character (`str.lower`). -/
def pyLowerChar (c : Char) : Char :=
  if c.toNat ≥ 65 && c.toNat ≤ 90 then Char.ofNat (c.toNat + 32) else c

/-- Python's `str.lower` on an ASCII string. -/
def pyLower (s : String) : String :=
  String.mk (s.toList.map pyLowerChar)

/-- Python truthiness of an `Optional[int]` value: `None` and `0` are
falsy, every other integer truthy. -/
def pyTruthyOptInt : Option Int → Bool
  | none => false
  | some v => v != 0

/-- Python truthiness of an `Optional[str]` value: `None` and the empty
string are falsy (used for `self.api_keys.get(provider)` checks,
models.py lines 110, 166). -/
def pyTruthyOptStr : Option String → Bool
  | none => false
  | some s => s != ""

/-- The guard `default_error_score and 1 <= default_error_score <= 5` of
eval.py line 197: the configured value is truthy and inside the rubric
range. -/
def desUsable : Option Int → Bool
  | none => false
  | some v => v != 0 && decide (1 ≤ v) && decide (v ≤ 5)

/-- The reverse-keyed transform of results_handler.py line 115
(`score = 6 - score`), applied when the question's `reverse` flag is set
(line 114). -/
def applyReverse (rev : Bool) (score : Int) : Int :=
  if rev then 6 - score else score

/-- Result of processing one question inside the per-model loop of
`run_evaluation` (eval.py lines 163-211): the updated `responses` list
(entries are `None` or a score), the updated `errors` list, and how many
times `chain.invoke` was called for this question (1 or 2). -/
structure StepResult where
  responses : List (Option Int)
  errors : List ErrorRec
  calls : Nat
deriving DecidableEq, Repr

/-- The fallthrough of eval.py lines 195-211, reached when either no
retry was attempted or the retry failed.  If
`default_error_score and 1 <= default_error_score <= 5` a
`PersonalityResponse(score=default_error_score)` is appended (the inner
`try` of lines 198-206 cannot fail for an in-range integer); otherwise a
`None` placeholder is appended only when `len(responses) < i`
(lines 204-206 and 209-211). -/
def afterFailResponses (des : Option Int) (i : Nat)
    (responses : List (Option Int)) : List (Option Int) :=
  if desUsable des then responses ++ [des]
  else if responses.length < i then responses ++ [none] else responses

/-- One iteration of the per-question loop of eval.py lines 163-211 for
question index `i`.  `oracle a` is the outcome of `chain.invoke` on
attempt `a` (0 = first call, 1 = retry).  On first-call success the
score is appended (line 171).  On failure an `ErrorResponse` is recorded
with `default_score = default_error_score if default_error_score else
None` (lines 177-180); with `retry_failed` a single retry is invoked
(line 186), and on retry success the score is appended and the recorded
error popped (lines 188-190). -/
def questionStep (oracle : Nat → CallResult) (des : Option Int)
    (retryFailed : Bool) (i : Nat) (responses : List (Option Int))
    (errors : List ErrorRec) : StepResult :=
  match oracle 0 with
  | .ok s => ⟨responses ++ [some s], errors, 1⟩
  | .err m =>
    let errors1 := errors ++ [⟨m, if pyTruthyOptInt des then des else none⟩]
    if retryFailed then
      match oracle 1 with
      | .ok s => ⟨responses ++ [some s], errors1.dropLast, 2⟩
      | .err _ => ⟨afterFailResponses des i responses, errors1, 2⟩
    else
      ⟨afterFailResponses des i responses, errors1, 1⟩

/-- The per-model question loop of eval.py lines 163-211, iterating
question indices `i, i+1, ...` for `n` remaining questions.
`oracle j a` is the outcome of invoking the model on question `j`,
attempt `a`. -/
def modelLoopAux (oracle : Nat → Nat → CallResult) (des : Option Int)
    (retryFailed : Bool) :
    Nat → Nat → List (Option Int) → List ErrorRec →
    List (Option Int) × List ErrorRec
  | _, 0, responses, errors => (responses, errors)
  | i, n + 1, responses, errors =>
    let st := questionStep (oracle i) des retryFailed i responses errors
    modelLoopAux oracle des retryFailed (i + 1) n st.responses st.errors

/-- The whole per-model loop over a bank of `numQuestions` questions,
started with empty `responses` and `errors` (eval.py lines 160-161). -/
def modelLoop (oracle : Nat → Nat → CallResult) (des : Option Int)
    (retryFailed : Bool) (numQuestions : Nat) :
    List (Option Int) × List ErrorRec :=
  modelLoopAux oracle des retryFailed 0 numQuestions [] []

/-- `valid_responses = [r for r in responses if r is not None]`
(eval.py line 214). -/
def validResponses (responses : List (Option Int)) : List Int :=
  responses.filterMap id

/-- The `ModelEvaluation` record of src/utils/schemas.py lines 25-31 as
constructed at eval.py lines 217-222 (the timestamp carries no claim
content and is omitted). -/
structure ModelEvalRec where
  model_name : String
  model_version : String
  responses : List Int
  errors : List ErrorRec
deriving DecidableEq, Repr

/-- The outer loop of eval.py lines 158-223: one `ModelEvaluation` is
produced per entry of the `models` dict (paired here with its
`model_versions` value, which is recorded under the same key at
models.py lines 190-191).  `oracle name j a` is the invocation oracle of
the model named `name`. -/
def evalAllModels (models : List (String × String))
    (oracle : String → Nat → Nat → CallResult) (des : Option Int)
    (retryFailed : Bool) (numQuestions : Nat) : List ModelEvalRec :=
  models.map fun nv =>
    let r := modelLoop (oracle nv.1) des retryFailed numQuestions
    ⟨nv.1, nv.2, validResponses r.1, r.2⟩

/-- `batch_params.get(key, dflt)` on the integer-or-null-valued batch
parameters (eval.py lines 154-155): an absent key yields the default,
a present key yields its stored value (which may be null = `none`). -/
def getBatchParam (params : List (String × Option Int)) (key : String)
    (dflt : Option Int) : Option Int :=
  match params.lookup key with
  | none => dflt
  | some v => v

/-- `default_error_score = batch_params.get("default_error_score", 3)`
(eval.py line 154); a run without a batch file has `batch_params = {}`
(eval.py line 107). -/
def defaultErrorScoreOf (params : List (String × Option Int)) : Option Int :=
  getBatchParam params "default_error_score" (some 3)

/-- A model entry of the registry configuration: its display `name` and
`version` string (models.py lines 46-98; the class path and constructor
parameters are consumed only by the constructor call, whose success is
an oracle in this embedding). -/
structure ModelConfig where
  name : String
  version : String
deriving DecidableEq, Repr

/-- `self.configs`: provider name mapped to its model-id table
(models.py lines 16, 39, 46). -/
abbrev ProviderConfigs := List (String × List (String × ModelConfig))

/-- Split a character list at its first colon. -/
def splitAtColon : List Char → Option (List Char × List Char)
  | [] => none
  | c :: cs =>
    if c == ':' then some ([], cs)
    else (splitAtColon cs).map fun p => (c :: p.1, p.2)

/-- The guard and split of models.py lines 152-156: `if ":" not in
model_spec: continue` then `provider, model_id = model_spec.split(":", 1)`
(split at the first colon only). -/
def splitSpec (spec : String) : Option (String × String) :=
  (splitAtColon spec.toList).map fun p => (String.mk p.1, String.mk p.2)

/-- `f"ENABLE_{provider}_{model_id}".upper().replace("-", "_")`
(models.py line 171): uppercasing followed by dash replacement, both
character-wise. -/
def enableEnvVar (provider model_id : String) : String :=
  String.mk ((("ENABLE_" ++ provider ++ "_" ++ model_id).toList).map
    fun c => if pyUpperChar c == '-' then '_' else pyUpperChar c)

/-- `os.environ.get(env_var, "").lower() == "false"` (models.py
line 172). -/
def envDisabled (env : String → Option String) (provider model_id : String) :
    Bool :=
  pyLower ((env (enableEnvVar provider model_id)).getD "") == "false"

/-- Python dict assignment `d[k] = v`: replace the value in place when
the key is present, append otherwise (insertion order preserved). -/
def dictInsert (d : List (String × String)) (k v : String) :
    List (String × String) :=
  if d.any (fun p => p.1 == k) then
    d.map fun p => if p.1 == k then (p.1, v) else p
  else d ++ [(k, v)]

/-- `ModelRegistry.list_available_models` (models.py lines 106-116):
every `provider:model_id` of the configuration whose provider has a
truthy API key. -/
def list_available_models (configs : ProviderConfigs)
    (apiKeys : String → Option String) : List String :=
  configs.foldr
    (fun pm acc =>
      if pyTruthyOptStr (apiKeys pm.1) then
        pm.2.map (fun m => pm.1 ++ ":" ++ m.1) ++ acc
      else acc) []

/-- `batch_config or selected_models or self.list_available_models()`
(models.py line 145): an empty list and `None` are falsy. -/
def selectModelSpecs (batchConfig : List String)
    (selected : Option (List String)) (available : List String) :
    List String :=
  if batchConfig.isEmpty then
    match selected with
    | none => available
    | some l => if l.isEmpty then available else l
  else batchConfig

/-- The body of the per-spec loop of
`ModelRegistry.initialize_models` (models.py lines 151-194): every
guard failure (`":" not in model_spec`, unknown provider, unknown model
id, missing API key, environment toggle, constructor exception) skips
the entry with `continue` and leaves the accumulated dicts untouched;
on success `models[name]` and `model_versions[name]` are assigned
(merged here into one name-to-version dict, as both are updated in
lockstep with the same key). -/
def initStep (configs : ProviderConfigs)
    (apiKeys : String → Option String) (env : String → Option String)
    (ctorOk : String → String → Bool)
    (acc : List (String × String)) (spec : String) :
    List (String × String) :=
  match splitSpec spec with
  | none => acc
  | some pm =>
    match configs.lookup pm.1 with
    | none => acc
    | some providerModels =>
      match providerModels.lookup pm.2 with
      | none => acc
      | some cfg =>
        if !pyTruthyOptStr (apiKeys pm.1) then acc
        else if envDisabled env pm.1 pm.2 then acc
        else if ctorOk pm.1 pm.2 then dictInsert acc cfg.name cfg.version
        else acc

/-- `ModelRegistry.initialize_models` (models.py lines 118-199) after
the selection of line 145: fold the per-spec loop over the selected
specs, starting from empty dicts. -/
def initialize_models (configs : ProviderConfigs)
    (apiKeys : String → Option String) (env : String → Option String)
    (ctorOk : String → String → Bool) (specs : List String) :
    List (String × String) :=
  specs.foldl (initStep configs apiKeys env ctorOk) []

/-- The trait set of results_handler.py lines 75-82: collect the
stripped `trait` of every dict-format question that has one, as a set,
then `sorted(...)` (Python's stable sort on strings; set membership is
modelled by `dedup`). -/
def collectTraits (questions : List QuestionD) : List String :=
  sortStrings ((questions.filterMap fun q => q.trait.map pyStrip).dedup)

/-- `trait_scores[trait].append(score)` (results_handler.py line 116):
append `s` to the entry of key `t` of the trait dict. -/
def updateTraitScores (d : List (String × List Int)) (t : String) (s : Int) :
    List (String × List Int) :=
  d.map fun p => if p.1 == t then (p.1, p.2 ++ [s]) else p

/-- The body of `for i, response in enumerate(eval_data["responses"])`
(results_handler.py lines 93-116) for one enumerated response
`ir = (i, score)`: skip when `i >= len(questions)`; extract the stripped
trait and the reverse flag of `questions[i]`; under the guard
`trait and trait in trait_scores and response` (a response dict is
always truthy) and `if score:`, append the reverse-transformed score to
the trait's bucket. -/
def traitStep (questions : List QuestionD) (d : List (String × List Int))
    (ir : Nat × Int) : List (String × List Int) :=
  if ir.1 ≥ questions.length then d
  else
    match questions[ir.1]? with
    | none => d
    | some q =>
      match q.trait with
      | none => d
      | some tr0 =>
        if (pyStrip tr0) != "" && d.any (fun p => p.1 == (pyStrip tr0))
            && ir.2 != 0 then
          updateTraitScores d (pyStrip tr0) (applyReverse q.reverse ir.2)
        else d

/-- The trait-bucket dict of results_handler.py lines 91-116:
initialised as `{trait: [] for trait in traits}` and filled by the
enumerate loop. -/
def buildTraitScores (questions : List QuestionD) (responses : List Int)
    (traits : List String) : List (String × List Int) :=
  responses.enum.foldl (traitStep questions)
    (traits.map fun t => (t, ([] : List Int)))

/-- Specification-side description of the scores contributing to trait
`t`: the positional pairing of response `i` with question `i`, keeping
pairs whose question carries the (stripped, non-empty) trait `t` and
whose score is non-zero, reverse-transformed where flagged
(spec section 4.4). -/
def contributingScores (questions : List QuestionD) (responses : List Int)
    (t : String) : List Int :=
  (responses.zip questions).filterMap fun sq =>
    match sq.2.trait with
    | none => none
    | some tr0 =>
      if (pyStrip tr0) != "" && (pyStrip tr0) == t && sq.1 != 0 then
        some (applyReverse sq.2.reverse sq.1)
      else none

/-- The per-(model, trait) average of results_handler.py lines 118-125:
`sum(scores) / len(scores)` when the bucket is non-empty, `None`
otherwise.  Python float division is modelled exactly over ℚ. -/
def modelTraitAverage (questions : List QuestionD) (responses : List Int)
    (t : String) : Option ℚ :=
  match (buildTraitScores questions responses (collectTraits questions)).lookup
      t with
  | none => none
  | some scores =>
    if scores.isEmpty then none
    else some ((scores.sum : ℚ) / (scores.length : ℚ))

/-- Rendering of one trait-average CSV cell (results_handler.py lines
138-143): an absent average is written as the string `"N/A"`; a present
one is written with two decimals (the decimal digits carry no claim
content, so a present value keeps its exact rational here). -/
def renderTraitCell (v : Option ℚ) : String :=
  match v with
  | none => "N/A"
  | some q => "avg:" ++ toString q.num ++ "/" ++ toString q.den

/-- A cell of the per-question score CSV.  `blank` is a Python `None`
appended to the row (the csv module writes it as an empty cell). -/
inductive Cell where
  | int (n : Int)
  | blank
  | na
deriving DecidableEq, Repr

/-- The score-CSV cell of question `i` for one model
(results_handler.py lines 54-67): the `i`-th response score when
`i < len(responses)`; otherwise, when the model's error list is
non-empty, the `default_score` of the error at index
`min(i, len(errors) - 1)` (the key `"default_score"` is always present
in a dumped `ErrorResponse`, its value possibly `None`); `"N/A"` when
the error list is empty. -/
def scoreCell (responses : List Int) (errors : List ErrorRec) (i : Nat) :
    Cell :=
  if h : i < responses.length then .int (responses.get ⟨i, h⟩)
  else if herr : errors.length = 0 then .na
  else
    match (errors.get ⟨min i (errors.length - 1), by omega⟩).default_score with
    | some v => .int v
    | none => .blank

/-- The `Question, Trait, Reverse` columns extracted from a dict-format
question (results_handler.py lines 167-170): text, stripped trait
defaulting to `"Unknown"`, and `"Yes"`/`"No"` for the reverse flag. -/
def questionCols (q : QuestionD) : List String :=
  [q.question, pyStrip (q.trait.getD "Unknown"), if q.reverse then "Yes" else "No"]

/-- The rows of the error CSV for one model (results_handler.py lines
159-190): one row per recorded error, enumerated as `(k, error)`; the
question shown is `questions[min(k, len(questions) - 1)]` — the error's
ordinal in the error list, clamped — or `"Unknown"` columns when the
question list is empty; the final column is the original error text. -/
def errorRows (model_name : String) (questions : List QuestionD)
    (errors : List ErrorRec) : List (List String) :=
  errors.enum.map fun ke =>
    if h : questions.length = 0 then
      [model_name, "Unknown", "Unknown", "No", ke.2.error]
    else
      [model_name]
        ++ questionCols (questions.get ⟨min ke.1 (questions.length - 1),
            by omega⟩)
        ++ [ke.2.error]

/-- A JSON value as produced by `json.loads` (numerals keep their raw
text, which no claim inspects). -/
inductive Json where
  | null
  | bool (b : Bool)
  | num (raw : String)
  | str (s : String)
  | arr (elems : List Json)
  | obj (fields : List (String × Json))
deriving Inhabited

/-- JSON insignificant whitespace (space, tab, newline, carriage
return). -/
def isJsonWs (c : Char) : Bool :=
  c == ' ' || c == '\t' || c == '\n' || c == '\r'

/-- Drop leading JSON whitespace. -/
def skipWs : List Char → List Char
  | [] => []
  | c :: cs => if isJsonWs c then skipWs cs else c :: cs

/-- Value of one hexadecimal digit. -/
def hexVal (c : Char) : Option Nat :=
  if '0' ≤ c ∧ c ≤ '9' then some (c.toNat - '0'.toNat)
  else if 'a' ≤ c ∧ c ≤ 'f' then some (c.toNat - 'a'.toNat + 10)
  else if 'A' ≤ c ∧ c ≤ 'F' then some (c.toNat - 'A'.toNat + 10)
  else none

/-- Parse the body of a JSON string after its opening quote, handling
the standard escapes (astral `\u` surrogate pairing is approximated
per code unit; no claim touches such input) and rejecting raw control
characters, as `json.loads` does. -/
def parseStringBody : List Char → Option (List Char × List Char)
  | [] => none
  | c :: rest =>
    if c == '"' then some ([], rest)
    else if c == '\\' then
      match rest with
      | [] => none
      | e :: rs =>
        if e == '"' then (parseStringBody rs).map fun p => ('"' :: p.1, p.2)
        else if e == '\\' then
          (parseStringBody rs).map fun p => ('\\' :: p.1, p.2)
        else if e == '/' then (parseStringBody rs).map fun p => ('/' :: p.1, p.2)
        else if e == 'b' then
          (parseStringBody rs).map fun p => ('\x08' :: p.1, p.2)
        else if e == 'f' then
          (parseStringBody rs).map fun p => ('\x0c' :: p.1, p.2)
        else if e == 'n' then
          (parseStringBody rs).map fun p => ('\n' :: p.1, p.2)
        else if e == 'r' then
          (parseStringBody rs).map fun p => ('\r' :: p.1, p.2)
        else if e == 't' then
          (parseStringBody rs).map fun p => ('\t' :: p.1, p.2)
        else if e == 'u' then
          match rs with
          | h1 :: h2 :: h3 :: h4 :: rs2 =>
            match hexVal h1, hexVal h2, hexVal h3, hexVal h4 with
            | some a, some b, some c2, some d =>
              (parseStringBody rs2).map fun p =>
                (Char.ofNat (((a * 16 + b) * 16 + c2) * 16 + d) :: p.1, p.2)
            | _, _, _, _ => none
          | _ => none
        else none
    else if c.toNat < 32 then none
    else (parseStringBody rest).map fun p => (c :: p.1, p.2)

/-- Take a maximal run of decimal digits. -/
def takeDigits : List Char → List Char × List Char
  | [] => ([], [])
  | c :: cs =>
    if c.isDigit then
      let p := takeDigits cs
      (c :: p.1, p.2)
    else ([], c :: cs)

/-- Parse the integer part of a JSON numeral: `0`, or a nonzero digit
followed by digits (leading zeros are rejected, as in `json.loads`). -/
def parseIntPart : List Char → Option (List Char × List Char)
  | [] => none
  | c :: cs =>
    if c == '0' then some ([c], cs)
    else if c.isDigit then
      let p := takeDigits cs
      some (c :: p.1, p.2)
    else none

/-- Parse an optional JSON fraction part (`.` followed by at least one
digit). -/
def parseFracPart : List Char → Option (List Char × List Char)
  | [] => some ([], [])
  | c :: cs =>
    if c == '.' then
      match takeDigits cs with
      | ([], _) => none
      | (ds, rest) => some ('.' :: ds, rest)
    else some ([], c :: cs)

/-- Parse an optional JSON exponent part (`e`/`E`, optional sign, at
least one digit). -/
def parseExpPart : List Char → Option (List Char × List Char)
  | [] => some ([], [])
  | c :: cs =>
    if c == 'e' || c == 'E' then
      match cs with
      | [] => none
      | s :: cs2 =>
        if s == '+' || s == '-' then
          match takeDigits cs2 with
          | ([], _) => none
          | (ds, rest) => some (c :: s :: ds, rest)
        else
          match takeDigits (s :: cs2) with
          | ([], _) => none
          | (ds, rest) => some (c :: ds, rest)
    else some ([], c :: cs)

/-- Parse a JSON numeral, keeping its raw text. -/
def parseNumber (cs : List Char) : Option (List Char × List Char) :=
  let sc : List Char × List Char :=
    match cs with
    | '-' :: rest => (['-'], rest)
    | _ => ([], cs)
  match parseIntPart sc.2 with
  | none => none
  | some ip =>
    match parseFracPart ip.2 with
    | none => none
    | some fp =>
      match parseExpPart fp.2 with
      | none => none
      | some ep => some (sc.1 ++ ip.1 ++ fp.1 ++ ep.1, ep.2)

mutual

/-- Recursive-descent parser of one JSON value over fuelled recursion
(every recursive call consumes input, so the generous fuel supplied by
`json_loads` never runs out on real input). -/
def parseValue : Nat → List Char → Option (Json × List Char)
  | 0, _ => none
  | fuel + 1, cs0 =>
    let cs := skipWs cs0
    match cs with
    | [] => none
    | c :: rest =>
      if c == '"' then
        (parseStringBody rest).map fun p => (Json.str (String.mk p.1), p.2)
      else if c == '\x7b' then
        (parseFields fuel (skipWs rest) true).map fun p => (Json.obj p.1, p.2)
      else if c == '[' then
        (parseElems fuel (skipWs rest) true).map fun p => (Json.arr p.1, p.2)
      else if ['t', 'r', 'u', 'e'].isPrefixOf cs then
        some (Json.bool true, cs.drop 4)
      else if ['f', 'a', 'l', 's', 'e'].isPrefixOf cs then
        some (Json.bool false, cs.drop 5)
      else if ['n', 'u', 'l', 'l'].isPrefixOf cs then
        some (Json.null, cs.drop 4)
      else
        (parseNumber cs).map fun p => (Json.num (String.mk p.1), p.2)

/-- Parse the elements of a JSON array after `[` (whitespace already
skipped); `isFirst` distinguishes the position right after `[`, where
`]` is legal, from the position after a comma, where it is not. -/
def parseElems : Nat → List Char → Bool → Option (List Json × List Char)
  | 0, _, _ => none
  | fuel + 1, cs, isFirst =>
    match cs with
    | ']' :: rest => if isFirst then some ([], rest) else none
    | _ =>
      match parseValue fuel cs with
      | none => none
      | some (j, rest1) =>
        match skipWs rest1 with
        | ',' :: rest2 =>
          match parseElems fuel (skipWs rest2) false with
          | some (js, rest3) => some (j :: js, rest3)
          | none => none
        | ']' :: rest2 => some ([j], rest2)
        | _ => none

/-- Parse the fields of a JSON object after its opening brace
(whitespace already skipped). -/
def parseFields : Nat → List Char → Bool →
    Option (List (String × Json) × List Char)
  | 0, _, _ => none
  | fuel + 1, cs, isFirst =>
    match cs with
    | '\x7d' :: rest => if isFirst then some ([], rest) else none
    | '"' :: rest =>
      match parseStringBody rest with
      | none => none
      | some (key, rest1) =>
        match skipWs rest1 with
        | ':' :: rest2 =>
          match parseValue fuel rest2 with
          | none => none
          | some (v, rest3) =>
            match skipWs rest3 with
            | ',' :: rest4 =>
              match parseFields fuel (skipWs rest4) false with
              | some (fs, rest5) => some ((String.mk key, v) :: fs, rest5)
              | none => none
            | '\x7d' :: rest4 => some ([(String.mk key, v)], rest4)
            | _ => none
        | _ => none
    | _ => none

end

/-- Model of Python's `json.loads`: parse exactly one JSON document,
allowing surrounding whitespace, rejecting anything else. -/
def json_loads (s : String) : Option Json :=
  match parseValue (2 * s.length + 4) s.toList with
  | none => none
  | some (j, rest) => if (skipWs rest).isEmpty then some j else none

/-- `load_bfi_questions` (eval.py lines 19-32): the file content is fed
to `json.loads` and the parsed value returned; a parse failure is
logged and re-raised (`none` here).  There is no plain-text branch. -/
def load_bfi_questions (content : String) : Option Json :=
  json_loads content

/-- Whether a JSON value is a string (the only element shape accepted
by the pydantic field `questions: List[str]`, schemas.py line 41). -/
def isJsonStr : Json → Bool
  | .str _ => true
  | _ => false

/-- Whether a JSON value is an object (the only shape accepted by the
per-question access `question["question"]`, eval.py line 164). -/
def isJsonObj : Json → Bool
  | .obj _ => true
  | _ => false

/-- Pydantic validation of `EvaluationResults.questions : List[str]`
(schemas.py lines 39-41): every element must be a string; pydantic v2
does not coerce a dict into a string. -/
def validateQuestionsField (qs : List Json) : Bool :=
  qs.all isJsonStr

/-- The uncaught per-question access `question_text =
question["question"]` of eval.py line 164, which sits outside the `try`
beginning at line 167: it raises `KeyError` for a dict missing the key
and `TypeError` for a non-dict, and succeeds (`none` here) only for an
object carrying the key. -/
def questionAccessError : Json → Option String
  | .obj fields =>
    if (fields.lookup "question").isSome then none else some "KeyError"
  | _ => some "TypeError"

/-- The first exception the evaluation loop's per-question access
raises, if any: the inner loop of eval.py lines 163-211 walks the
questions in order (for the first model already), so the run aborts at
the first question whose `question["question"]` access fails. -/
def firstQuestionError (questions : List Json) : Option String :=
  questions.findSome? questionAccessError

/-- `run_evaluation` after model initialization (eval.py lines
102-104, 158-238): with no models it logs and returns `None` (`.ok
none`, line 104, no report written); otherwise the model × question
loop runs, aborting with the uncaught exception of the first failing
`question["question"]` access (line 164, outside the `try`); when the
loop completes, `EvaluationResults(questions=questions, ...)` is
constructed, validating `questions` against `List[str]`, and a pydantic
`ValidationError` propagates out of `run_evaluation` (`.error` here);
`save_results` (line 232) is reached only in the `.ok some` case, so no
report file is written on any error path. -/
def run_evaluation (questions : List Json) (models : List (String × String))
    (oracle : String → Nat → Nat → CallResult) (des : Option Int)
    (retryFailed : Bool) : Except String (Option (List ModelEvalRec)) :=
  if models.isEmpty then .ok none
  else
    match firstQuestionError questions with
    | some e => .error e
    | none =>
      let evals := evalAllModels models oracle des retryFailed
        questions.length
      if validateQuestionsField questions then .ok (some evals)
      else .error "ValidationError"

/-- A question bank in supported format (a) of spec section 6: one
question per line with a `" (Tests <trait>)"` suffix. -/
def plainTextBank : String :=
  "I am talkative (Tests Extraversion)\nI worry a lot (Tests Neuroticism)"

/-- A question bank in supported format (b) of spec section 6: a JSON
array of question objects. -/
def jsonBank : String :=
  "[\x7b\"question\": \"I see myself as reserved\", \"trait\": \"Extraversion\", \"reverse\": true\x7d]"

/-- The parsed value of `jsonBank`. -/
def jsonBankParsed : Json :=
  .arr [.obj [("question", .str "I see myself as reserved"),
              ("trait", .str "Extraversion"),
              ("reverse", .bool true)]]

/-- A JSON array of one object that lacks the `"question"` key. -/
def keylessBank : String :=
  "[\x7b\"trait\": \"X\"\x7d]"

/-- The parsed value of `keylessBank`. -/
def keylessBankParsed : Json :=
  .arr [.obj [("trait", .str "X")]]

/-- Two-question bank in dict format: question 0 tests trait "A"
reverse-keyed, question 1 tests trait "B". -/
def c1qs : List QuestionD :=
  [⟨"Q0", some "A", true⟩, ⟨"Q1", some "B", false⟩]

/-- Invocation oracle where question 0 always raises and question 1
answers 5. -/
def c1oracle : Nat → Nat → CallResult :=
  fun i _ => if i == 0 then .err "boom" else .ok 5

/-- Two-question bank in dict format, both tagged with trait "T". -/
def c6qs : List QuestionD :=
  [⟨"Q0", some "T", false⟩, ⟨"Q1", some "T", false⟩]

/-- Invocation oracle where question 1 always raises and question 0
answers 4. -/
def c6oracle : Nat → Nat → CallResult :=
  fun i _ => if i == 1 then .err "boom" else .ok 4

/-- Oracle whose first attempt on any question raises and whose retry
answers 4. -/
def retryOracle : Nat → Nat → CallResult :=
  fun _ a => if a == 0 then .err "e" else .ok 4

/-- Attempt oracle that always raises. -/
def failOracle : Nat → CallResult :=
  fun _ => .err "e"

/-- A one-provider, one-model registry configuration. -/
def oneModelConfigs : ProviderConfigs :=
  [("openai", [("gpt-4o", ⟨"GPT-4o", "v1"⟩)])]

/-- Credential map holding only an OpenAI key. -/
def oneKeys : String → Option String :=
  fun p => if p == "openai" then some "k" else none

/-- Empty process environment. -/
def noEnv : String → Option String :=
  fun _ => none

/-- Constructor oracle where every model class initializes
successfully. -/
def okCtor : String → String → Bool :=
  fun _ _ => true

/-- Proof-infrastructure index list `[i, i+1, ..., i+n-1]` used to give
the question loop a closed form. -/
def idxList : Nat → Nat → List Nat
  | _, 0 => []
  | i, n + 1 => i :: idxList (i + 1) n

/-- The score question `j` ends with when a usable default `v` is in
force and retries are off: the model's answer, or `v` on failure. -/
def scoreWithDefault (oracle : Nat → Nat → CallResult) (v : Int)
    (j : Nat) : Int :=
  match oracle j 0 with
  | .ok s => s
  | .err _ => v

/-- The error entry question `j` contributes when a usable default `v`
is in force and retries are off. -/
def errEntryWithDefault (oracle : Nat → Nat → CallResult) (v : Int)
    (j : Nat) : Option ErrorRec :=
  match oracle j 0 with
  | .ok _ => none
  | .err m => some ⟨m, some v⟩

/-- Proof-infrastructure: the scores the responses `rs`, enumerated
from index `n`, append to trait `t`'s bucket, mirroring the guard of
`traitStep` with the dict-key test expressed over `collectTraits`. -/
def gContrib (questions : List QuestionD) (t : String) :
    Nat → List Int → List Int
  | _, [] => []
  | n, s :: rest =>
    (if n ≥ questions.length then []
     else
       match questions[n]? with
       | none => []
       | some q =>
         match q.trait with
         | none => []
         | some tr0 =>
           if ((pyStrip tr0) != ""
                && (collectTraits questions).any
                    (fun y => y == (pyStrip tr0))
                && s != 0)
              && ((pyStrip tr0) == t) then
             [applyReverse q.reverse s]
           else [])
      ++ gContrib questions t (n + 1) rest

/-- C3: the reverse-scoring transform applied to a flagged question's
score `s` equals `6 - s`, and it is an involution on the rubric range:
for every integer `s` in 1..5 applying it twice returns `s`
(results_handler.py lines 113-116). -/
theorem c3_reverse_involution (s : Int) (h1 : 1 ≤ s) (h5 : s ≤ 5) :
    applyReverse true s = 6 - s
    ∧ applyReverse true (applyReverse true s) = s := by
  refine ⟨by simp [applyReverse], ?_⟩
  simp [applyReverse]

/-- Witness for C3 at the concrete score 2. -/
theorem c3_reverse_involution_witness :
    applyReverse true 2 = 6 - 2 ∧ applyReverse true (applyReverse true 2) = 2 :=
  c3_reverse_involution 2 (by decide) (by decide)

/-- If every question of the loop rescues its first-call failure with a
successful retry, the loop adds no error entry (the `errors.pop()` of
eval.py line 190 removes the entry appended at lines 177-180). -/
theorem modelLoopAux_errors_of_retry_ok (oracle : Nat → Nat → CallResult)
    (des : Option Int) :
    ∀ (n i : Nat) (resp : List (Option Int)) (errs : List ErrorRec),
      (∀ j, i ≤ j → j < i + n →
        ∃ m s, oracle j 0 = .err m ∧ oracle j 1 = .ok s) →
      (modelLoopAux oracle des true i n resp errs).2 = errs := by
  intro n
  induction n with
  | zero => intro i resp errs _; rfl
  | succ k ih =>
    intro i resp errs h
    obtain ⟨m, s, hm, hs⟩ := h i (le_refl i) (by omega)
    have hstep : questionStep (oracle i) des true i resp errs
        = ⟨resp ++ [some s], errs, 2⟩ := by
      simp only [questionStep, hm, hs, if_true, List.dropLast_concat]
    show (modelLoopAux oracle des true (i + 1) k
        (questionStep (oracle i) des true i resp errs).responses
        (questionStep (oracle i) des true i resp errs).errors).2 = errs
    rw [hstep]
    exact ih (i + 1) _ _ (fun j hj1 hj2 => h j (by omega) (by omega))

/-- C2: with `retry_failed=true`, a failing first invocation triggers
exactly one retry (`calls = 2`, eval.py line 186); when the retry
succeeds, the recorded error is discarded (line 190) so the error list
is exactly as before the question, and the retry's score is appended as
the question's outcome (line 188).  Consequently a run whose every
question is rescued by its retry ends with an empty error list. -/
theorem c2_retry_success (oracle : Nat → CallResult) (des : Option Int)
    (i : Nat) (resp : List (Option Int)) (errs : List ErrorRec)
    (m : String) (s : Int)
    (h0 : oracle 0 = .err m) (h1 : oracle 1 = .ok s) :
    (questionStep oracle des true i resp errs).calls = 2
    ∧ (questionStep oracle des true i resp errs).errors = errs
    ∧ (questionStep oracle des true i resp errs).responses = resp ++ [some s]
    ∧ (∀ (oracle2 : Nat → CallResult) (m2 : String), oracle2 0 = .err m2 →
        (questionStep oracle2 des true i resp errs).calls = 2)
    ∧ ∀ (oracle2 : Nat → Nat → CallResult) (n : Nat),
        (∀ j, j < n → ∃ mj sj, oracle2 j 0 = .err mj ∧ oracle2 j 1 = .ok sj) →
        (modelLoop oracle2 des true n).2 = [] := by
  have hstep : questionStep oracle des true i resp errs
      = ⟨resp ++ [some s], errs, 2⟩ := by
    simp only [questionStep, h0, h1, if_true, List.dropLast_concat]
  refine ⟨by rw [hstep], by rw [hstep], by rw [hstep], ?_, ?_⟩
  · intro oracle2 m2 ho2
    cases h2 : oracle2 1 <;> simp [questionStep, ho2, h2]
  · intro oracle2 n h
    exact modelLoopAux_errors_of_retry_ok oracle2 des n 0 [] []
      (fun j _ hj2 => h j (by omega))

/-- Witness for C2: a model whose first call always raises and whose
retry answers 4. -/
theorem c2_retry_success_witness :
    (questionStep (retryOracle 0) none true 0 [] []).calls = 2
    ∧ (questionStep (retryOracle 0) none true 0 [] []).errors = []
    ∧ (questionStep (retryOracle 0) none true 0 [] []).responses = [some 4]
    ∧ (questionStep failOracle none true 0 [] []).calls = 2
    ∧ (modelLoop retryOracle none true 3).2 = [] := by
  have h := c2_retry_success (retryOracle 0) none 0 [] [] "e" 4 rfl rfl
  exact ⟨h.1, h.2.1, h.2.2.1, h.2.2.2.1 failOracle "e" rfl,
    h.2.2.2.2 retryOracle 3 (fun j _ => ⟨"e", 4, rfl, rfl⟩)⟩

/-- C9: when the batch parameters do not bind `default_error_score`
(in particular, every run without a batch file, where
`batch_params = {}`), the runner resolves it to 3 (eval.py line 154);
a per-call failure not rescued by a successful retry then synthesizes a
score of 3 and keeps an error record carrying `default_score = 3`
(lines 177-180 and 196-200); and an absent score (the unusable-default
path) is reachable only when the key is explicitly bound to a
null/zero/out-of-range value. -/
theorem c9_default_error_score (params : List (String × Option Int))
    (oracle : Nat → CallResult) (i : Nat) (resp : List (Option Int))
    (errs : List ErrorRec) (m : String) (r : Bool)
    (habs : params.lookup "default_error_score" = none)
    (hfail : oracle 0 = .err m)
    (hretry : r = true → ∃ m2, oracle 1 = .err m2) :
    defaultErrorScoreOf params = some 3
    ∧ (questionStep oracle (some 3) r i resp errs).responses = resp ++ [some 3]
    ∧ (questionStep oracle (some 3) r i resp errs).errors
        = errs ++ [⟨m, some 3⟩]
    ∧ ∀ params2 : List (String × Option Int),
        desUsable (defaultErrorScoreOf params2) = false →
        ∃ v, params2.lookup "default_error_score" = some v
          ∧ desUsable v = false := by
  have hresolve : defaultErrorScoreOf params = some 3 := by
    simp [defaultErrorScoreOf, getBatchParam, habs]
  have hstep : questionStep oracle (some 3) r i resp errs
      = ⟨resp ++ [some 3], errs ++ [⟨m, some 3⟩], if r then 2 else 1⟩ := by
    cases r with
    | false =>
      simp only [questionStep, hfail, if_false, Bool.false_eq_true]
      simp [afterFailResponses, desUsable, pyTruthyOptInt]
    | true =>
      obtain ⟨m2, hm2⟩ := hretry rfl
      simp only [questionStep, hfail, hm2, if_true]
      simp [afterFailResponses, desUsable, pyTruthyOptInt]
  refine ⟨hresolve, by rw [hstep], by rw [hstep], ?_⟩
  intro params2 hun
  cases hl : params2.lookup "default_error_score" with
  | none =>
    exfalso
    have : defaultErrorScoreOf params2 = some 3 := by
      simp [defaultErrorScoreOf, getBatchParam, hl]
    rw [this] at hun
    simp [desUsable] at hun
  | some v =>
    refine ⟨v, rfl, ?_⟩
    have : defaultErrorScoreOf params2 = v := by
      simp [defaultErrorScoreOf, getBatchParam, hl]
    rwa [this] at hun

/-- Witness for C9: empty batch parameters resolve to 3; a failing
question with the resolved default yields score 3 plus an error record;
the unusable case demands an explicit null binding. -/
theorem c9_default_error_score_witness :
    defaultErrorScoreOf [] = some 3
    ∧ (questionStep failOracle (some 3) false 0 [] []).responses = [some 3]
    ∧ (questionStep failOracle (some 3) false 0 [] []).errors
        = [⟨"e", some 3⟩]
    ∧ ∃ v, ([("default_error_score", (none : Option Int))].lookup
          "default_error_score" = some v ∧ desUsable v = false) := by
  have h := c9_default_error_score [] failOracle 0 [] [] "e" false rfl rfl
    (fun hc => absurd hc (by decide))
  exact ⟨h.1, h.2.1, h.2.2.1,
    h.2.2.2 [("default_error_score", none)] (by decide)⟩

/-- Case analysis of one iteration of the `initialize_models` spec loop
(models.py lines 151-194): either a guard fails and the accumulator is
untouched, or every guard passes and the model is inserted. -/
theorem initStep_cases (cfgs : ProviderConfigs) (keys : String → Option String)
    (env : String → Option String) (ctor : String → String → Bool)
    (acc : List (String × String)) (spec : String) :
    initStep cfgs keys env ctor acc spec = acc
    ∨ ∃ pm t cfg, splitSpec spec = some pm
        ∧ cfgs.lookup pm.1 = some t ∧ t.lookup pm.2 = some cfg
        ∧ pyTruthyOptStr (keys pm.1) = true
        ∧ envDisabled env pm.1 pm.2 = false
        ∧ ctor pm.1 pm.2 = true
        ∧ initStep cfgs keys env ctor acc spec
            = dictInsert acc cfg.name cfg.version := by
  rcases hs : splitSpec spec with _ | pm
  · left; simp [initStep, hs]
  · rcases hc : cfgs.lookup pm.1 with _ | t
    · left; simp [initStep, hs, hc]
    · rcases hm : t.lookup pm.2 with _ | cfg
      · left; simp [initStep, hs, hc, hm]
      · by_cases hk : pyTruthyOptStr (keys pm.1) = true
        · by_cases he : envDisabled env pm.1 pm.2 = true
          · left; simp [initStep, hs, hc, hm, hk, he]
          · by_cases hct : ctor pm.1 pm.2 = true
            · right
              exact ⟨pm, t, cfg, rfl, hc, hm, hk, by simpa using he, hct,
                by simp [initStep, hs, hc, hm, hk, he, hct]⟩
            · left; simp [initStep, hs, hc, hm, hk, he, hct]
        · left; simp [initStep, hs, hc, hm, hk]

/-- Membership in a Python dict after `d[k] = v`: the element is the
new binding or was already present. -/
theorem mem_dictInsert (d : List (String × String)) (k v : String)
    (p : String × String) (hp : p ∈ dictInsert d k v) :
    p = (k, v) ∨ p ∈ d := by
  unfold dictInsert at hp
  by_cases hk : d.any (fun q => q.1 == k)
  · rw [if_pos hk] at hp
    obtain ⟨q, hq, hfq⟩ := List.mem_map.mp hp
    by_cases h2 : q.1 == k
    · rw [if_pos h2] at hfq
      left
      have : q.1 = k := by simpa using h2
      rw [← hfq, this]
    · rw [if_neg h2] at hfq
      right; rw [← hfq]; exact hq
  · rw [if_neg hk] at hp
    rcases List.mem_append.mp hp with h | h
    · right; exact h
    · left; simpa using h

/-- C7: model-selection precedence (models.py line 145) — a non-empty
batch list wins over any single-model selection, a non-empty explicit
selection wins over the available-models default, and `None` or an
empty selection falls back to every available model; and an entry
failing a guard (malformed spec, unknown provider, unknown model id, or
missing credential) is skipped non-fatally while the remaining entries
are still processed (models.py lines 151-168). -/
theorem c7_selection_precedence (bc l avail : List String)
    (sel : Option (List String)) (cfgs : ProviderConfigs)
    (keys : String → Option String) (env : String → Option String)
    (ctor : String → String → Bool) (spec : String) (rest : List String)
    (hbc : bc ≠ [])
    (hl : l ≠ [])
    (hskip : splitSpec spec = none
      ∨ ∃ pm, splitSpec spec = some pm
          ∧ (cfgs.lookup pm.1 = none
            ∨ (∃ t, cfgs.lookup pm.1 = some t ∧ t.lookup pm.2 = none)
            ∨ pyTruthyOptStr (keys pm.1) = false)) :
    selectModelSpecs bc sel avail = bc
    ∧ selectModelSpecs [] (some l) avail = l
    ∧ selectModelSpecs [] none avail = avail
    ∧ selectModelSpecs [] (some []) avail = avail
    ∧ initialize_models cfgs keys env ctor (spec :: rest)
        = initialize_models cfgs keys env ctor rest := by
  have hstep : initStep cfgs keys env ctor [] spec = [] := by
    rcases hskip with h | ⟨pm, hpm, hcase⟩
    · simp [initStep, h]
    · rcases hcase with h2 | ⟨t, ht, ht2⟩ | h2
      · simp [initStep, hpm, h2]
      · simp [initStep, hpm, ht, ht2]
      · rcases hc : cfgs.lookup pm.1 with _ | t
        · simp [initStep, hpm, hc]
        · rcases hm : t.lookup pm.2 with _ | cfg
          · simp [initStep, hpm, hc, hm]
          · simp [initStep, hpm, hc, hm, h2]
  refine ⟨?_, ?_, ?_, ?_, ?_⟩
  · simp [selectModelSpecs, hbc]
  · simp [selectModelSpecs, hl]
  · simp [selectModelSpecs]
  · simp [selectModelSpecs]
  · simp only [initialize_models, List.foldl_cons, hstep]

/-- Witness for C7 at concrete selections and a malformed entry skipped
ahead of a well-formed one. -/
theorem c7_selection_precedence_witness :
    selectModelSpecs ["a:b"] (some ["c:d"]) ["e:f"] = ["a:b"]
    ∧ selectModelSpecs [] (some ["c:d"]) ["e:f"] = ["c:d"]
    ∧ selectModelSpecs [] none ["e:f"] = ["e:f"]
    ∧ selectModelSpecs [] (some []) ["e:f"] = ["e:f"]
    ∧ initialize_models oneModelConfigs oneKeys noEnv okCtor
        ["nocolon", "openai:gpt-4o"]
      = initialize_models oneModelConfigs oneKeys noEnv okCtor
        ["openai:gpt-4o"] := by
  have h := c7_selection_precedence ["a:b"] ["c:d"] ["e:f"] (some ["c:d"])
    oneModelConfigs oneKeys noEnv okCtor "nocolon" ["openai:gpt-4o"]
    (by decide) (by decide) (Or.inl (by decide))
  exact h

/-- C5: the evaluation loop produces exactly one `ModelEvaluation`
record per initialized model for every invocation oracle (so a raising
(model, question) pair never aborts the run, eval.py lines 158-223);
and every model in the `initialize_models` output passed all guards,
including a successful constructor call — a model failing
initialization never appears (models.py lines 176-194). -/
theorem c5_one_record_per_model :
    (∀ (models : List (String × String))
       (oracle : String → Nat → Nat → CallResult) (des : Option Int)
       (r : Bool) (nq : Nat),
       (evalAllModels models oracle des r nq).length = models.length)
    ∧ ∀ (cfgs : ProviderConfigs) (keys : String → Option String)
        (env : String → Option String) (ctor : String → String → Bool)
        (specs : List String) (p : String × String),
        p ∈ initialize_models cfgs keys env ctor specs →
        ∃ (pm : String × String) (cfg : ModelConfig), ctor pm.1 pm.2 = true
          ∧ (∃ t, cfgs.lookup pm.1 = some t ∧ t.lookup pm.2 = some cfg)
          ∧ pyTruthyOptStr (keys pm.1) = true
          ∧ envDisabled env pm.1 pm.2 = false
          ∧ p = (cfg.name, cfg.version) := by
  constructor
  · intro models oracle des r nq
    simp [evalAllModels]
  · intro cfgs keys env ctor specs p hp
    have key : ∀ (specs2 : List String) (acc : List (String × String)),
        (∀ q ∈ acc, ∃ (pm : String × String) (cfg : ModelConfig),
          ctor pm.1 pm.2 = true
          ∧ (∃ t, cfgs.lookup pm.1 = some t ∧ t.lookup pm.2 = some cfg)
          ∧ pyTruthyOptStr (keys pm.1) = true
          ∧ envDisabled env pm.1 pm.2 = false
          ∧ q = (cfg.name, cfg.version)) →
        ∀ q ∈ List.foldl (initStep cfgs keys env ctor) acc specs2,
          ∃ (pm : String × String) (cfg : ModelConfig), ctor pm.1 pm.2 = true
            ∧ (∃ t, cfgs.lookup pm.1 = some t ∧ t.lookup pm.2 = some cfg)
            ∧ pyTruthyOptStr (keys pm.1) = true
            ∧ envDisabled env pm.1 pm.2 = false
            ∧ q = (cfg.name, cfg.version) := by
      intro specs2
      induction specs2 with
      | nil => intro acc hacc q hq; exact hacc q (by simpa using hq)
      | cons s ss ih =>
        intro acc hacc q hq
        rw [List.foldl_cons] at hq
        refine ih _ ?_ q hq
        intro q2 hq2
        rcases initStep_cases cfgs keys env ctor acc s with heq
          | ⟨pm, t, cfg, _, hc, hm, hk, he, hct, heq⟩
        · rw [heq] at hq2; exact hacc q2 hq2
        · rw [heq] at hq2
          rcases mem_dictInsert _ _ _ _ hq2 with h | h
          · exact ⟨pm, cfg, hct, ⟨t, hc, hm⟩, hk, he, h⟩
          · exact hacc q2 h
    exact key specs [] (by simp) p hp

/-- Witness for C5: one model, an always-raising oracle, and a concrete
successful registry initialization. -/
theorem c5_one_record_per_model_witness :
    (evalAllModels [("GPT-4o", "v1")] (fun _ _ _ => .err "down") none false
        2).length = 1
    ∧ ∃ (pm : String × String) (cfg : ModelConfig), okCtor pm.1 pm.2 = true
        ∧ (∃ t, oneModelConfigs.lookup pm.1 = some t
            ∧ t.lookup pm.2 = some cfg)
        ∧ pyTruthyOptStr (oneKeys pm.1) = true
        ∧ envDisabled noEnv pm.1 pm.2 = false
        ∧ (("GPT-4o", "v1") : String × String) = (cfg.name, cfg.version) :=
  ⟨c5_one_record_per_model.1 [("GPT-4o", "v1")] (fun _ _ _ => .err "down")
      none false 2,
    c5_one_record_per_model.2 oneModelConfigs oneKeys noEnv okCtor
      ["openai:gpt-4o"] ("GPT-4o", "v1") (by decide)⟩

/-- Counterexample to C8: `load_bfi_questions` parses the file content
only as JSON (eval.py line 27) — a question bank in the plain-text
one-question-per-line format is not valid JSON, so loading it raises at
startup instead of succeeding. -/
theorem c8_plain_text_rejected :
    load_bfi_questions plainTextBank = none := by
  rfl

/-- C8 amended: the loader accepts only format (b), a JSON document —
a JSON array of question objects parses, while a plain-text-format
bank makes the run fail at startup (`json.loads` raises and
`load_bfi_questions` re-raises, eval.py lines 25-32). -/
theorem c8_loader_json_only :
    load_bfi_questions jsonBank = some jsonBankParsed
    ∧ load_bfi_questions plainTextBank = none := by
  exact ⟨rfl, rfl⟩

/-- Counterexample to C10: the claim quantifies over every run whose
bank is a JSON array of objects, but an object lacking the `"question"`
key makes the uncaught access of eval.py line 164 raise `KeyError`
during the first loop iteration: `run_evaluation` aborts mid-loop,
`EvaluationResults` is never constructed and no `ValidationError`
occurs, contradicting the claimed raise after the evaluation loop. -/
theorem c10_keyless_object_aborts_midloop :
    load_bfi_questions keylessBank = some keylessBankParsed
    ∧ isJsonObj (.obj [("trait", .str "X")]) = true
    ∧ run_evaluation [.obj [("trait", .str "X")]] [("GPT-4o", "v1")]
        (fun _ _ _ => .ok 4) (some 3) false = .error "KeyError"
    ∧ run_evaluation [.obj [("trait", .str "X")]] [("GPT-4o", "v1")]
        (fun _ _ _ => .ok 4) (some 3) false ≠ .error "ValidationError" := by
  refine ⟨rfl, rfl, rfl, fun h => ?_⟩
  have h0 : run_evaluation [.obj [("trait", .str "X")]] [("GPT-4o", "v1")]
      (fun _ _ _ => .ok 4) (some 3) false = .error "KeyError" := rfl
  rw [h0] at h
  simp at h

/-- C10 amended: for a run with at least one initialized model whose
loaded question bank is a non-empty JSON array of objects each carrying
the `"question"` key — the shape the runner's per-question access
`question["question"]` (eval.py line 164) accepts — the evaluation loop
completes and the terminal `EvaluationResults` construction fails
pydantic validation, because `questions` is declared `List[str]`
(schemas.py line 41) while the loader yields dicts; `run_evaluation`
therefore raises after the evaluation loop and `save_results` (eval.py
line 232) is never reached, so no report file is written.  (A bank
containing an object without the key instead aborts mid-loop with an
uncaught `KeyError`, still before any report; with no models the run
returns `None` early, eval.py line 104.) -/
theorem c10_validation_error (content : String) (qs : List Json)
    (models : List (String × String))
    (oracle : String → Nat → Nat → CallResult) (des : Option Int) (r : Bool)
    (hload : load_bfi_questions content = some (.arr qs))
    (hne : qs ≠ [])
    (hmodels : models ≠ [])
    (hobj : ∀ q ∈ qs, isJsonObj q = true)
    (hkey : ∀ q ∈ qs, questionAccessError q = none) :
    run_evaluation qs models oracle des r = .error "ValidationError" := by
  have hm : models.isEmpty = false := by
    cases models with
    | nil => exact absurd rfl hmodels
    | cons a as => rfl
  have hfq : firstQuestionError qs = none := by
    unfold firstQuestionError
    rw [List.findSome?_eq_none_iff]
    exact hkey
  cases qs with
  | nil => exact absurd rfl hne
  | cons q rest =>
    have hq := hobj q (List.mem_cons_self q rest)
    have hval : validateQuestionsField (q :: rest) = false := by
      cases q
      case obj fields => simp [validateQuestionsField, isJsonStr]
      all_goals simp [isJsonObj] at hq
    simp only [run_evaluation, hm, Bool.false_eq_true, if_false, hfq, hval]

/-- Witness for C10 amended: the concrete JSON bank loads as an array
of one keyed object, and the run over it ends in the validation
error. -/
theorem c10_validation_error_witness :
    load_bfi_questions jsonBank
      = some (.arr [.obj [("question", .str "I see myself as reserved"),
          ("trait", .str "Extraversion"), ("reverse", .bool true)]])
    ∧ run_evaluation
        [.obj [("question", .str "I see myself as reserved"),
          ("trait", .str "Extraversion"), ("reverse", .bool true)]]
        [("GPT-4o", "v1")] (fun _ _ _ => .ok 4) (some 3) false
      = .error "ValidationError" := by
  refine ⟨rfl, ?_⟩
  exact c10_validation_error jsonBank _ [("GPT-4o", "v1")]
    (fun _ _ _ => .ok 4) (some 3) false rfl (by simp) (by simp)
    (by intro q hq; rw [List.mem_singleton] at hq; subst hq; rfl)
    (by intro q hq; rw [List.mem_singleton] at hq; subst hq; rfl)

/-- C1 evaluated at its failing input (retry_failed=false,
default_error_score explicitly 0 hence unusable; question 0 of `c1qs`
raises, question 1 answers 5): the failing question contributes no
score, but — contrary to the claim and to the code's own
"keep the indices aligned with questions" comments (eval.py lines
203-211), defeated by the `None` filtering of line 214 and the
off-by-one `len(responses) < i` guard — question 1's score slides to
position 0, so aggregation pairs it with question 0: trait "B"
(question 1's trait) gets no score while trait "A" (question 0's,
reverse-keyed) averages `6 - 5 = 1` from question 1's answer. -/
theorem c1_gap_misaligns_aggregation :
    validResponses (modelLoop c1oracle (some 0) false 2).1 = [5]
    ∧ modelTraitAverage c1qs
        (validResponses (modelLoop c1oracle (some 0) false 2).1) "B" = none
    ∧ modelTraitAverage c1qs
        (validResponses (modelLoop c1oracle (some 0) false 2).1) "A"
      = some 1 := by
  have hB : (buildTraitScores c1qs
      (validResponses (modelLoop c1oracle (some 0) false 2).1)
      (collectTraits c1qs)).lookup "B" = some [] := by decide
  have hA : (buildTraitScores c1qs
      (validResponses (modelLoop c1oracle (some 0) false 2).1)
      (collectTraits c1qs)).lookup "A" = some [1] := by decide
  refine ⟨by decide, ?_, ?_⟩
  · simp [modelTraitAverage, hB]
  · simp [modelTraitAverage, hA]

/-- Counterexample to C6: with `default_error_score=3`,
`retry_failed=false`, two questions `"Q0"`, `"Q1"` and every invocation
of question 1 raising, the score CSV does hold 3 at question 1's row,
but the single error-CSV row names question `"Q0"` — the question at
index `min(0, 1)` where 0 is the error's ordinal in the error list
(results_handler.py line 162) — not the failing question `"Q1"`, so the
claimed (model, question) pairing of the error row is false. -/
theorem c6_error_row_wrong_question :
    (modelLoop c6oracle (some 3) false 2).2 = [⟨"boom", some 3⟩]
    ∧ scoreCell (validResponses (modelLoop c6oracle (some 3) false 2).1)
        (modelLoop c6oracle (some 3) false 2).2 1 = .int 3
    ∧ errorRows "M" c6qs (modelLoop c6oracle (some 3) false 2).2
        = [["M", "Q0", "T", "No", "boom"]]
    ∧ (c6qs.map QuestionD.question).get? 1 = some "Q1"
    ∧ "Q0" ≠ "Q1" := by
  refine ⟨by decide, by decide, by decide, by decide, by decide⟩

/-- Length of the index list. -/
theorem idxList_length : ∀ n k, (idxList k n).length = n := by
  intro n
  induction n with
  | zero => intro k; rfl
  | succ t ih => intro k; simp [idxList, ih]

/-- Entries of the index list. -/
theorem idxList_getElem :
    ∀ n k j, (h : j < (idxList k n).length) → (idxList k n)[j] = k + j := by
  intro n
  induction n with
  | zero => intro k j h; simp [idxList] at h
  | succ t ih =>
    intro k j h
    cases j with
    | zero => simp [idxList]
    | succ j2 =>
      have h2 : j2 < (idxList (k + 1) t).length := by
        simp [idxList_length]
        simp [idxList, idxList_length] at h
        omega
      simp only [idxList, List.getElem_cons_succ]
      rw [ih (k + 1) j2 h2]
      omega

/-- `filterMap` over an index list on which the function vanishes. -/
theorem filterMap_idxList_nil {β : Type} (g : Nat → Option β) :
    ∀ n k, (∀ j, k ≤ j → j < k + n → g j = none) →
      (idxList k n).filterMap g = [] := by
  intro n
  induction n with
  | zero => intro k _; rfl
  | succ t ih =>
    intro k h
    simp only [idxList, List.filterMap_cons, h k (le_refl k) (by omega)]
    exact ih (k + 1) (fun j h1 h2 => h j (by omega) (by omega))

/-- `filterMap` over an index list on which the function hits exactly
once. -/
theorem filterMap_idxList_single {β : Type} (g : Nat → Option β) (b : β) :
    ∀ n k i, k ≤ i → i < k + n → g i = some b →
      (∀ j, k ≤ j → j < k + n → j ≠ i → g j = none) →
      (idxList k n).filterMap g = [b] := by
  intro n
  induction n with
  | zero =>
    intro k i h1 h2
    exact absurd h2 (by omega)
  | succ t ih =>
    intro k i h1 h2 hgi hother
    by_cases hk : k = i
    · subst hk
      simp only [idxList, List.filterMap_cons, hgi]
      rw [filterMap_idxList_nil g t (k + 1)
        (fun j hj1 hj2 => hother j (by omega) (by omega) (by omega))]
    · have hknei : k ≠ i := hk
      have hgk : g k = none := hother k (le_refl k) (by omega) hknei
      simp only [idxList, List.filterMap_cons, hgk]
      have h1' : k + 1 ≤ i := by omega
      have h2' : i < (k + 1) + t := by omega
      exact ih (k + 1) i h1' h2' hgi
        (fun j hj1 hj2 hjne => hother j (by omega) (by omega) hjne)

/-- Filtering a list of always-present responses recovers the scores. -/
theorem validResponses_map_some (h : Nat → Int) (l : List Nat) :
    validResponses (l.map fun j => some (h j)) = l.map h := by
  induction l with
  | nil => rfl
  | cons a as ih => simp [validResponses, List.filterMap_cons] at ih ⊢; exact ih

/-- Closed form of the question loop when `retry_failed` is false and a
usable `default_error_score` `v` is configured: every question yields
exactly one response — the answer or `v` — and exactly the failing
questions contribute error records carrying `default_score = v`. -/
theorem modelLoopAux_usable_des (oracle : Nat → Nat → CallResult) (v : Int)
    (hv : desUsable (some v) = true) :
    ∀ (n i : Nat) (resp : List (Option Int)) (errs : List ErrorRec),
      modelLoopAux oracle (some v) false i n resp errs
        = (resp ++ (idxList i n).map
              (fun j => some (scoreWithDefault oracle v j)),
           errs ++ (idxList i n).filterMap (errEntryWithDefault oracle v)) := by
  have hv' : v ≠ 0 ∧ 1 ≤ v ∧ v ≤ 5 := by
    simpa [desUsable, and_assoc] using hv
  have hpy : pyTruthyOptInt (some v) = true := by
    simpa [pyTruthyOptInt] using hv'.1
  intro n
  induction n with
  | zero => intro i resp errs; simp [modelLoopAux, idxList]
  | succ k ih =>
    intro i resp errs
    show modelLoopAux oracle (some v) false (i + 1) k
        (questionStep (oracle i) (some v) false i resp errs).responses
        (questionStep (oracle i) (some v) false i resp errs).errors = _
    cases ho : oracle i 0 with
    | ok s =>
      have hstep : questionStep (oracle i) (some v) false i resp errs
          = ⟨resp ++ [some s], errs, 1⟩ := by
        simp only [questionStep, ho]
      rw [hstep]
      rw [ih (i + 1) (resp ++ [some s]) errs]
      simp [idxList, scoreWithDefault, errEntryWithDefault, ho]
    | err m =>
      have hstep : questionStep (oracle i) (some v) false i resp errs
          = ⟨resp ++ [some v], errs ++ [⟨m, some v⟩], 1⟩ := by
        simp only [questionStep, ho, Bool.false_eq_true, if_false]
        simp [afterFailResponses, hv, hpy]
      rw [hstep]
      rw [ih (i + 1) _ _]
      simp [idxList, scoreWithDefault, errEntryWithDefault, ho]

/-- C6 amended: with `default_error_score=3`, `retry_failed=false` and
every invocation of question `i` raising (all other questions
answering), the model's error list holds exactly the one record with
the original error text and `default_score = 3`; the score CSV holds 3
at question `i`'s row in that model's column (results_handler.py lines
54-57); and the error CSV holds one row with that model and the
original error text whose question column is the question at index
`min(0, len(questions)-1) = 0` — the error's ordinal in the error list,
clamped — which is the failing question only when the ordinals happen
to coincide. -/
theorem c6_amended (qs : List QuestionD) (name : String)
    (oracle : Nat → Nat → CallResult) (i : Nat) (m : String)
    (hi : i < qs.length)
    (hfail : oracle i 0 = .err m)
    (hok : ∀ j, j < qs.length → j ≠ i → ∃ s, oracle j 0 = .ok s) :
    (modelLoop oracle (some 3) false qs.length).2 = [⟨m, some 3⟩]
    ∧ scoreCell
        (validResponses (modelLoop oracle (some 3) false qs.length).1)
        (modelLoop oracle (some 3) false qs.length).2 i = .int 3
    ∧ errorRows name qs (modelLoop oracle (some 3) false qs.length).2
        = [[name] ++ questionCols (qs.get ⟨0, by omega⟩) ++ [m]] := by
  have hclosed := modelLoopAux_usable_des oracle 3 (by decide) qs.length 0 [] []
  have herrs : (modelLoop oracle (some 3) false qs.length).2
      = [(⟨m, some 3⟩ : ErrorRec)] := by
    rw [modelLoop, hclosed]
    simp only [List.nil_append]
    exact filterMap_idxList_single (errEntryWithDefault oracle 3) ⟨m, some 3⟩
      qs.length 0 i (by omega) (by omega)
      (by simp [errEntryWithDefault, hfail])
      (fun j h1 h2 hne => by
        obtain ⟨s, hs⟩ := hok j (by omega) hne
        simp [errEntryWithDefault, hs])
  have hresp : (modelLoop oracle (some 3) false qs.length).1
      = (idxList 0 qs.length).map
          (fun j => some (scoreWithDefault oracle 3 j)) := by
    rw [modelLoop, hclosed]
    simp
  have hvr : validResponses (modelLoop oracle (some 3) false qs.length).1
      = (idxList 0 qs.length).map (scoreWithDefault oracle 3) := by
    rw [hresp, validResponses_map_some]
  have hvrlen : (validResponses
      (modelLoop oracle (some 3) false qs.length).1).length = qs.length := by
    rw [hvr, List.length_map, idxList_length]
  refine ⟨herrs, ?_, ?_⟩
  · have hlt : i < (validResponses
        (modelLoop oracle (some 3) false qs.length).1).length := by omega
    unfold scoreCell
    rw [dif_pos hlt]
    have hget : (validResponses
        (modelLoop oracle (some 3) false qs.length).1).get ⟨i, hlt⟩
        = scoreWithDefault oracle 3 i := by
      have h1 : i < (idxList 0 qs.length).length := by
        rw [idxList_length]; omega
      simp only [List.get_eq_getElem, hvr, List.getElem_map]
      rw [idxList_getElem qs.length 0 i h1]
      simp
    rw [hget]
    simp [scoreWithDefault, hfail]
  · rw [herrs]
    have hne0 : ¬ qs.length = 0 := by omega
    simp only [errorRows, List.enum, List.enumFrom, List.map_cons, List.map_nil]
    rw [dif_neg hne0]
    simp

/-- Witness for C6 amended at the concrete two-question run whose
second question always raises. -/
theorem c6_amended_witness :
    (modelLoop c6oracle (some 3) false c6qs.length).2 = [⟨"boom", some 3⟩]
    ∧ scoreCell
        (validResponses (modelLoop c6oracle (some 3) false c6qs.length).1)
        (modelLoop c6oracle (some 3) false c6qs.length).2 1 = .int 3
    ∧ errorRows "M" c6qs (modelLoop c6oracle (some 3) false c6qs.length).2
        = [["M"] ++ questionCols (c6qs.get ⟨0, by decide⟩) ++ ["boom"]] := by
  exact c6_amended c6qs "M" c6oracle 1 "boom" (by decide) (by decide)
    (by
      intro j hj hne
      have hj0 : j = 0 := by
        simp [c6qs] at hj
        omega
      subst hj0
      exact ⟨4, rfl⟩)

/-- Membership under sorted insertion. -/
theorem mem_insertStr (x a : String) (l : List String) :
    a ∈ insertStr x l ↔ a = x ∨ a ∈ l := by
  induction l with
  | nil => simp [insertStr]
  | cons y ys ih =>
    simp only [insertStr]
    by_cases h : strLe x y
    · simp [h]
    · simp only [h, Bool.false_eq_true, if_false, List.mem_cons, ih]
      tauto

/-- Sorting preserves membership. -/
theorem mem_sortStrings (a : String) (l : List String) :
    a ∈ sortStrings l ↔ a ∈ l := by
  induction l with
  | nil => simp [sortStrings]
  | cons x xs ih => simp [sortStrings, mem_insertStr, ih]

/-- The key test of the trait dict is unchanged by a bucket append. -/
theorem any_updateTraitScores (d : List (String × List Int)) (t x : String)
    (s : Int) :
    (updateTraitScores d t s).any (fun p => p.1 == x)
      = d.any (fun p => p.1 == x) := by
  induction d with
  | nil => rfl
  | cons a as ih =>
    obtain ⟨k, v⟩ := a
    have hcons : updateTraitScores ((k, v) :: as) t s
        = (if (k == t) = true then (k, v ++ [s]) else (k, v))
            :: updateTraitScores as t s := rfl
    rw [hcons, List.any_cons, List.any_cons, ih]
    cases h : (k == t) with
    | true => rw [if_pos rfl]
    | false => rw [if_neg Bool.false_ne_true]

/-- Lookup of the appended-to bucket. -/
theorem lookup_updateTraitScores_self (d : List (String × List Int))
    (t : String) (s : Int) :
    (updateTraitScores d t s).lookup t
      = (d.lookup t).map (fun l => l ++ [s]) := by
  induction d with
  | nil => rfl
  | cons a as ih =>
    obtain ⟨k, v⟩ := a
    have hcons : updateTraitScores ((k, v) :: as) t s
        = (if (k == t) = true then (k, v ++ [s]) else (k, v))
            :: updateTraitScores as t s := rfl
    rw [hcons]
    cases h : (k == t) with
    | true =>
      have hk : k = t := by simpa using h
      have h2 : (t == k) = true := by simp [hk]
      rw [if_pos rfl]
      simp [List.lookup, h2]
    | false =>
      have hk : ¬ k = t := by simpa using h
      have h2 : (t == k) = false := by
        simp
        exact fun he => hk he.symm
      rw [if_neg Bool.false_ne_true]
      simp only [List.lookup, h2]
      exact ih

/-- Lookup of an untouched bucket. -/
theorem lookup_updateTraitScores_ne (d : List (String × List Int))
    (t t' : String) (s : Int) (hne : t' ≠ t) :
    (updateTraitScores d t s).lookup t' = d.lookup t' := by
  induction d with
  | nil => rfl
  | cons a as ih =>
    obtain ⟨k, v⟩ := a
    have hcons : updateTraitScores ((k, v) :: as) t s
        = (if (k == t) = true then (k, v ++ [s]) else (k, v))
            :: updateTraitScores as t s := rfl
    rw [hcons]
    cases h : (k == t) with
    | true =>
      have hk : k = t := by simpa using h
      have h2 : (t' == k) = false := by
        simp [hk]
        exact hne
      rw [if_pos rfl]
      simp only [List.lookup, h2]
      exact ih
    | false =>
      rw [if_neg Bool.false_ne_true]
      cases h2 : (t' == k) with
      | true => simp [List.lookup, h2]
      | false =>
        simp only [List.lookup, h2]
        exact ih

/-- `gContrib` vanishes past the end of the question list. -/
theorem gContrib_of_le (qs : List QuestionD) (t : String) :
    ∀ (rs : List Int) (n : Nat), qs.length ≤ n → gContrib qs t n rs = [] := by
  intro rs
  induction rs with
  | nil => intro n _; rfl
  | cons s rest ih =>
    intro n hn
    have hge : n ≥ qs.length := hn
    simp only [gContrib, hge, if_true, List.nil_append]
    exact ih (n + 1) (by omega)

/-- The lookup of the trait dict after the enumerate loop: every bucket
holds its initial content followed by the contributions of the
processed responses (results_handler.py lines 93-116). -/
theorem foldl_traitStep_lookup (qs : List QuestionD) :
    ∀ (rs : List Int) (n : Nat) (d : List (String × List Int)) (t : String),
      (∀ x, d.any (fun p => p.1 == x)
         = (collectTraits qs).any (fun y => y == x)) →
      ((rs.enumFrom n).foldl (traitStep qs) d).lookup t
        = (d.lookup t).map (fun l => l ++ gContrib qs t n rs) := by
  intro rs
  induction rs with
  | nil =>
    intro n d t _
    simp only [List.enumFrom, List.foldl_nil, gContrib]
    cases d.lookup t <;> simp
  | cons s rest ih =>
    intro n d t hkeys
    rw [List.enumFrom_cons, List.foldl_cons]
    by_cases hn : n ≥ qs.length
    · have hstep : traitStep qs d (n, s) = d := by
        simp [traitStep, hn]
      rw [hstep, ih (n + 1) d t hkeys]
      simp only [gContrib, hn, if_true, List.nil_append]
    · have hn' : n < qs.length := by omega
      have hq : qs[n]? = some qs[n] := List.getElem?_eq_getElem hn'
      cases htr : qs[n].trait with
      | none =>
        have hstep : traitStep qs d (n, s) = d := by
          simp [traitStep, hn, hq, htr]
        rw [hstep, ih (n + 1) d t hkeys]
        simp only [gContrib, hn, if_false, hq, htr, List.nil_append]
      | some tr0 =>
        have hrw : d.any (fun p => p.1 == (pyStrip tr0))
            = (collectTraits qs).any (fun y => y == (pyStrip tr0)) :=
          hkeys (pyStrip tr0)
        by_cases hg : ((pyStrip tr0) != ""
            && (collectTraits qs).any (fun y => y == (pyStrip tr0))
            && s != 0) = true
        · have hstep : traitStep qs d (n, s)
              = updateTraitScores d (pyStrip tr0)
                  (applyReverse qs[n].reverse s) := by
            simp only [traitStep, ge_iff_le, hn, if_false, hq, htr, hrw, hg,
              if_true]
          rw [hstep]
          rw [ih (n + 1) _ t
            (fun x => by rw [any_updateTraitScores]; exact hkeys x)]
          by_cases hteq : t = pyStrip tr0
          · subst hteq
            rw [lookup_updateTraitScores_self]
            have hhead : gContrib qs (pyStrip tr0) n (s :: rest)
                = applyReverse qs[n].reverse s
                    :: gContrib qs (pyStrip tr0) (n + 1) rest := by
              simp only [gContrib, hn, if_false, hq, htr, hg,
                beq_self_eq_true, Bool.true_and, Bool.and_true, if_true,
                List.singleton_append]
            rw [hhead]
            cases d.lookup (pyStrip tr0) <;> simp
          · rw [lookup_updateTraitScores_ne _ _ _ _ hteq]
            have hb4 : ((pyStrip tr0) == t) = false := by
              simp only [beq_eq_false_iff_ne, ne_eq]
              exact fun he => hteq he.symm
            have hhead : gContrib qs t n (s :: rest)
                = gContrib qs t (n + 1) rest := by
              simp only [gContrib, hn, if_false, hq, htr, hg, hb4,
                Bool.true_and, Bool.and_false, Bool.false_eq_true,
                List.nil_append]
            rw [hhead]
        · have hg' : ((pyStrip tr0) != ""
              && d.any (fun p => p.1 == (pyStrip tr0))
              && s != 0) = false := by
            rw [hrw]
            exact Bool.eq_false_iff.mpr (fun hc => hg hc)
          have hstep : traitStep qs d (n, s) = d := by
            simp only [traitStep, ge_iff_le, hn, if_false, hq, htr, hg',
              Bool.false_eq_true, if_false]
          rw [hstep, ih (n + 1) d t hkeys]
          have hX : ((pyStrip tr0) != ""
              && (collectTraits qs).any (fun y => y == (pyStrip tr0))
              && s != 0) = false :=
            Bool.eq_false_iff.mpr (fun hc => hg hc)
          have hhead : gContrib qs t n (s :: rest)
              = gContrib qs t (n + 1) rest := by
            simp only [gContrib, hn, if_false, hq, htr, hX, Bool.false_and,
              Bool.false_eq_true, List.nil_append]
          rw [hhead]

/-- The stripped trait of any question of the bank is in the collected
trait set (results_handler.py lines 75-82). -/
theorem mem_collectTraits (qs : List QuestionD) (q : QuestionD)
    (tr0 : String) (hq : q ∈ qs) (htr : q.trait = some tr0) :
    ((collectTraits qs).any (fun y => y == (pyStrip tr0))) = true := by
  rw [List.any_eq_true]
  refine ⟨pyStrip tr0, ?_, by simp⟩
  unfold collectTraits
  rw [mem_sortStrings, List.mem_dedup, List.mem_filterMap]
  exact ⟨q, hq, by rw [htr]; rfl⟩

/-- `gContrib` agrees with the positional zip description of the
contributing scores. -/
theorem gContrib_eq_contributing (qs : List QuestionD) (t : String) :
    ∀ (rs : List Int) (n : Nat),
      gContrib qs t n rs
        = ((rs.zip (qs.drop n)).filterMap fun sq =>
            match sq.2.trait with
            | none => none
            | some tr0 =>
              if (pyStrip tr0) != "" && (pyStrip tr0) == t && sq.1 != 0 then
                some (applyReverse sq.2.reverse sq.1)
              else none) := by
  intro rs
  induction rs with
  | nil => intro n; simp [gContrib]
  | cons s rest ih =>
    intro n
    by_cases hn : n < qs.length
    · have hq : qs[n]? = some qs[n] := List.getElem?_eq_getElem hn
      have hdrop : qs.drop n = qs[n] :: qs.drop (n + 1) :=
        List.drop_eq_getElem_cons hn
      rw [hdrop, List.zip_cons_cons, List.filterMap_cons]
      have hnge : ¬ (n ≥ qs.length) := by omega
      cases htr : qs[n].trait with
      | none =>
        simp only [gContrib, hnge, if_false, hq, htr, List.nil_append]
        exact ih (n + 1)
      | some tr0 =>
        have hmem : ((collectTraits qs).any (fun y => y == (pyStrip tr0)))
            = true :=
          mem_collectTraits qs qs[n] tr0 (List.getElem_mem hn) htr
        have hcond : (((pyStrip tr0) != ""
              && (collectTraits qs).any (fun y => y == (pyStrip tr0))
              && s != 0) && ((pyStrip tr0) == t))
            = ((pyStrip tr0) != "" && (pyStrip tr0) == t && s != 0) := by
          rw [hmem]
          cases (pyStrip tr0) != "" <;> cases ((pyStrip tr0) == t) <;>
            cases s != 0 <;> rfl
        simp only [gContrib, hnge, if_false, hq, htr, hcond]
        cases hc : ((pyStrip tr0) != "" && (pyStrip tr0) == t && s != 0) with
        | true => simp [ih (n + 1)]
        | false => simp [ih (n + 1)]
    · have hge : n ≥ qs.length := by omega
      have hdrop : qs.drop n = [] := List.drop_eq_nil_of_le (by omega)
      rw [hdrop]
      simp only [List.zip_nil_right, List.filterMap_nil]
      exact gContrib_of_le qs t (s :: rest) n hge

/-- The spec-side contributing-score list equals the loop contribution
started at index 0. -/
theorem contributingScores_eq_gContrib (qs : List QuestionD) (rs : List Int)
    (t : String) :
    contributingScores qs rs t = gContrib qs t 0 rs := by
  rw [gContrib_eq_contributing qs t rs 0, List.drop_zero]
  rfl

/-- Lookup in the freshly initialised trait dict. -/
theorem lookup_initTraitDict (l : List String) (t : String) (ht : t ∈ l) :
    (l.map fun x => (x, ([] : List Int))).lookup t = some [] := by
  induction l with
  | nil => simp at ht
  | cons x xs ih =>
    rw [List.map_cons]
    by_cases h : t = x
    · subst h
      simp [List.lookup]
    · have h2 : (t == x) = false := by simp [h]
      simp only [List.lookup, h2]
      rcases List.mem_cons.mp ht with h3 | h3
      · exact absurd h3 h
      · exact ih h3

/-- Key test of the freshly initialised trait dict. -/
theorem any_initTraitDict (l : List String) (x : String) :
    ((l.map fun y => (y, ([] : List Int))).any (fun p => p.1 == x))
      = l.any (fun y => y == x) := by
  induction l with
  | nil => rfl
  | cons a as ih => simp only [List.map_cons, List.any_cons, ih]

/-- C4: for every (model, trait) pair the reported trait average is the
simple arithmetic mean `sum/n` of the post-reverse-transform scores of
the contributing questions (results_handler.py lines 118-123), and a
trait with zero contributing scores is absent (`None`, line 125),
rendered `"N/A"` (line 143) — never the number 0. -/
theorem c4_trait_average (qs : List QuestionD) (rs : List Int) (t : String)
    (ht : t ∈ collectTraits qs) :
    modelTraitAverage qs rs t
      = (if contributingScores qs rs t = [] then none
         else some (((contributingScores qs rs t).sum : ℚ)
            / ((contributingScores qs rs t).length : ℚ)))
    ∧ (contributingScores qs rs t = [] →
        modelTraitAverage qs rs t = none
        ∧ renderTraitCell (modelTraitAverage qs rs t) = "N/A") := by
  have hlookup : (buildTraitScores qs rs (collectTraits qs)).lookup t
      = some (contributingScores qs rs t) := by
    rw [buildTraitScores]
    rw [show rs.enum = rs.enumFrom 0 from rfl]
    rw [foldl_traitStep_lookup qs rs 0 _ t
      (fun x => any_initTraitDict (collectTraits qs) x)]
    rw [lookup_initTraitDict (collectTraits qs) t ht]
    rw [contributingScores_eq_gContrib]
    simp
  have havg : modelTraitAverage qs rs t
      = (if contributingScores qs rs t = [] then none
         else some (((contributingScores qs rs t).sum : ℚ)
            / ((contributingScores qs rs t).length : ℚ))) := by
    unfold modelTraitAverage
    rw [hlookup]
    by_cases hc : contributingScores qs rs t = []
    · simp [hc]
    · simp [hc, List.isEmpty_iff]
  refine ⟨havg, fun hc => ?_⟩
  have hnone : modelTraitAverage qs rs t = none := by
    rw [havg, if_pos hc]
  exact ⟨hnone, by rw [hnone]; rfl⟩

/-- Witness for C4 at a concrete two-question bank (trait "A"
reverse-keyed) and the score list [2, 4]. -/
theorem c4_trait_average_witness :
    (modelTraitAverage c1qs [2, 4] "A"
      = (if contributingScores c1qs [2, 4] "A" = [] then none
         else some (((contributingScores c1qs [2, 4] "A").sum : ℚ)
            / ((contributingScores c1qs [2, 4] "A").length : ℚ))))
    ∧ (contributingScores c1qs [2, 4] "A" = [] →
        modelTraitAverage c1qs [2, 4] "A" = none
        ∧ renderTraitCell (modelTraitAverage c1qs [2, 4] "A") = "N/A") :=
  c4_trait_average c1qs [2, 4] "A" (by decide)

end BigFive
